import Mathlib

/-!
Verification of the PHYS3070 geodynamics-engine specification.

The repository's notebooks exercise an external simulation package; the
engine they rely on is described by the specification (mesh, fields,
rheology evaluator, Picard Stokes loop, thermal solve, simulation driver).
The definitions below are a shallow embedding of that engine, modelled from
the specification: real-valued rheology formulas use `Real.rpow`, while the
mesh, CFL time-step selection, swarm advection and driver bookkeeping are
executable over `ℚ`.
-/

namespace Engine

/-! ## Rheology (spec section 4.3) -/

/-- Modelled from the spec: a material's rheology law is either a constant
viscosity `η₀` or a power-law with pre-exponential factor `A` and stress
exponent `n` (spec section 3, Data Model; the engine itself is not in the
repository). -/
inductive Rheology where
  | constant (eta0 : ℝ)
  | powerLaw (A n : ℝ)

/-- Modelled from the spec: the viscosity clipping bounds `η_min`, `η_max`
are configuration inputs (spec section 4.3). -/
structure RheoConfig where
  etaMin : ℝ
  etaMax : ℝ

/-- Modelled from the spec: clipping of the effective viscosity to the
interval `[η_min, η_max]` (spec section 4.3). -/
def clip (lo hi x : ℝ) : ℝ := max lo (min x hi)

/-- Modelled from the spec: the unclipped power-law effective viscosity
`A^(-1/n) · ε̇_II^((1-n)/n)` (spec section 4.3). -/
noncomputable def powerLawRaw (A n edot : ℝ) : ℝ :=
  A ^ (-(1 / n)) * edot ^ ((1 - n) / n)

/-- Modelled from the spec: the Rheology Evaluator — a constant law returns
`η₀` unconditionally; a power-law returns the clipped effective viscosity
(spec section 4.3). -/
noncomputable def evalRheology (cfg : RheoConfig) (r : Rheology) (edot : ℝ) : ℝ :=
  match r with
  | .constant eta0 => eta0
  | .powerLaw A n => clip cfg.etaMin cfg.etaMax (powerLawRaw A n edot)

/-- The stress implied by a viscosity and a strain-rate invariant,
`σ = η · ε̇`. -/
def stressOf (eta edot : ℝ) : ℝ := eta * edot

/-- Modelled from the spec: the data-model statement of the power-law,
`η = A · σ^(1-n)` (spec section 3). -/
def dataModelPowerLaw (A n eta sigma : ℝ) : Prop := eta = A * sigma ^ (1 - n)

/-- The amended data-model statement `η = A⁻¹ · σ^(1-n)`: the form actually
consistent with the effective-viscosity formula of spec section 4.3. -/
def dataModelPowerLawInv (A n eta sigma : ℝ) : Prop := eta = A⁻¹ * sigma ^ (1 - n)

/-! ## Picard iteration (spec section 4.4) -/

/-- Modelled from the spec: the `NonConvergence` error carries the last
iterate, the iteration count and the last residual (spec sections 4.4, 7). -/
structure NonConvergence (S : Type) where
  lastIterate : S
  iterations : ℕ
  lastResidual : ℝ

/-- A successful solve: the solution together with the number of Picard
iterations it took (convergence diagnostics, spec section 4.6). -/
structure SolveResult (S : Type) where
  sol : S
  iterations : ℕ

/-- Modelled from the spec: one pass of the Picard state machine — assemble
and solve with the current viscosity, re-evaluate viscosity from the
solution, stop when the change test passes, fail with `NonConvergence` when
the iteration budget is exhausted (spec section 4.4). `solve` abstracts the
saddle-point linear solve, `viscOf` the per-element rheology re-evaluation,
`conv` the tolerance test on consecutive viscosity fields, `resid` the
residual reported on failure. -/
def picardAux {E S : Type} (solve : (E → ℝ) → S) (viscOf : S → E → ℝ)
    (conv : (E → ℝ) → (E → ℝ) → Bool) (resid : (E → ℝ) → (E → ℝ) → ℝ) :
    ℕ → ℕ → (E → ℝ) → Except (NonConvergence S) (SolveResult S)
  | 0, count, visc =>
    let sol := solve visc
    let viscNew := viscOf sol
    if conv visc viscNew then .ok ⟨sol, count + 1⟩
    else .error ⟨sol, count + 1, resid visc viscNew⟩
  | fuel + 1, count, visc =>
    let sol := solve visc
    let viscNew := viscOf sol
    if conv visc viscNew then .ok ⟨sol, count + 1⟩
    else picardAux solve viscOf conv resid fuel (count + 1) viscNew

/-- Modelled from the spec: the Picard loop with a hard cap of `maxIters`
iterations (spec section 4.4, divergence guard). -/
def picard {E S : Type} (solve : (E → ℝ) → S) (viscOf : S → E → ℝ)
    (conv : (E → ℝ) → (E → ℝ) → Bool) (resid : (E → ℝ) → (E → ℝ) → ℝ)
    (maxIters : ℕ) (visc0 : E → ℝ) : Except (NonConvergence S) (SolveResult S) :=
  picardAux solve viscOf conv resid (maxIters - 1) 0 visc0

/-- The sequence of viscosity fields the Picard loop visits: `visc₀`, then
each successor obtained by solving and re-evaluating the rheology. -/
def viscIter {E S : Type} (solve : (E → ℝ) → S) (viscOf : S → E → ℝ)
    (visc0 : E → ℝ) : ℕ → E → ℝ
  | 0 => visc0
  | k + 1 => viscOf (solve (viscIter solve viscOf visc0 k))

/-- The iteration count reported by a solve outcome, converged or not. -/
def iterationsOf {S : Type} : Except (NonConvergence S) (SolveResult S) → ℕ
  | .error e => e.iterations
  | .ok r => r.iterations

/-- Modelled from the spec: the viscosity update of Picard step 3 — evaluate
each element's material rheology at the strain-rate invariant of the current
solution (spec section 4.4). -/
noncomputable def viscFromRheology {E S : Type} (cfg : RheoConfig)
    (mat : E → Rheology) (strainInv : S → E → ℝ) (sol : S) : E → ℝ :=
  fun e => evalRheology cfg (mat e) (strainInv sol e)

/-- Modelled from the spec: the driver builds the initial per-element
viscosity field from the current swarm state and material rheologies,
evaluated at the previous strain-rate field (spec section 4.6a). -/
noncomputable def initVisc {E : Type} (cfg : RheoConfig) (mat : E → Rheology)
    (prevStrain : E → ℝ) : E → ℝ :=
  fun e => evalRheology cfg (mat e) (prevStrain e)

/-! ## Mesh (spec section 4.1) -/

/-- Modelled from the spec: the construction-time error kind
`InvalidGeometry` (spec sections 4.1, 7). -/
inductive GeoError where
  | invalidGeometry

/-- Modelled from the spec: a structured rectangular mesh — element counts
per axis and the domain bounds (spec section 3). -/
structure Mesh where
  nx : ℕ
  ny : ℕ
  minX : ℚ
  minY : ℚ
  maxX : ℚ
  maxY : ℚ

/-- Modelled from the spec: `resolve(elementRes, minCoord, maxCoord)` fails
with `InvalidGeometry` if any `elementRes` component is `< 1` or the minimum
coordinate is not strictly below the maximum in some component; otherwise it
builds the mesh (spec section 4.1). -/
def resolve (elementRes : ℤ × ℤ) (minCoord maxCoord : ℚ × ℚ) :
    Except GeoError Mesh :=
  if elementRes.1 < 1 ∨ elementRes.2 < 1 ∨
      maxCoord.1 ≤ minCoord.1 ∨ maxCoord.2 ≤ minCoord.2 then
    .error .invalidGeometry
  else
    .ok ⟨elementRes.1.toNat, elementRes.2.toNat,
         minCoord.1, minCoord.2, maxCoord.1, maxCoord.2⟩

/-- The number of nodes of a mesh: `(nx+1) × (ny+1)` (spec section 3). -/
def numNodes (m : Mesh) : ℕ := (m.nx + 1) * (m.ny + 1)

/-- The x-coordinate of the `i`-th node column of an evenly spaced mesh. -/
def nodeX (m : Mesh) (i : ℕ) : ℚ := m.minX + i * (m.maxX - m.minX) / m.nx

/-- The y-coordinate of the `j`-th node row of an evenly spaced mesh. -/
def nodeY (m : Mesh) (j : ℕ) : ℚ := m.minY + j * (m.maxY - m.minY) / m.ny

/-! ## Field interpolation and advection (spec sections 4.2, 4.6e) -/

/-- Modelled from the spec: bilinear interpolation from the four corner node
values of the containing element, at local coordinates `(xi, et)`
(spec section 4.2). -/
def bilinear (v00 v10 v01 v11 : ℚ) (xi et : ℚ) : ℚ :=
  (1 - xi) * (1 - et) * v00 + xi * (1 - et) * v10 +
    (1 - xi) * et * v01 + xi * et * v11

/-- Componentwise bilinear interpolation of a 2-D vector value. -/
def bilinearV (v00 v10 v01 v11 : ℚ × ℚ) (xi et : ℚ) : ℚ × ℚ :=
  (bilinear v00.1 v10.1 v01.1 v11.1 xi et, bilinear v00.2 v10.2 v01.2 v11.2 xi et)

/-- Modelled from the spec: sampling the velocity field at a point of an
element, by bilinear interpolation of its four corner node values
(spec section 4.2). `f` maps a node index `(i, j)` to its value and `e` is
the element's lower-left node index. -/
def interpVel (f : ℕ × ℕ → ℚ × ℚ) (e : ℕ × ℕ) (xi et : ℚ) : ℚ × ℚ :=
  bilinearV (f e) (f (e.1 + 1, e.2)) (f (e.1, e.2 + 1)) (f (e.1 + 1, e.2 + 1)) xi et

/-- Modelled from the spec: first-order advection, new position = old
position + Δt × velocity at the old position (spec section 4.6e). -/
def advect (p : ℚ × ℚ) (dt : ℚ) (v : ℚ × ℚ) : ℚ × ℚ :=
  (p.1 + dt * v.1, p.2 + dt * v.2)

/-! ## CFL time-step selection (spec section 4.6c) -/

/-- Per-element data for the CFL bound: the element's characteristic length
and the largest velocity magnitude over the element. -/
structure ElemInfo where
  size : ℚ
  speed : ℚ

/-- The CFL candidate bounds `CFL_factor × size / speed`, one per element
with nonzero velocity (an element at rest does not constrain Δt). -/
def dtCandidates (cfl : ℚ) (elems : List ElemInfo) : List ℚ :=
  elems.filterMap fun e => if 0 < e.speed then some (cfl * (e.size / e.speed)) else none

/-- Modelled from the spec: Δt = `CFL_factor × min(elementSize / |velocity|)`
over all elements, clamped to the configured maximum `dtMax`
(spec section 4.6c). -/
def selectDt (cfl dtMax : ℚ) (elems : List ElemInfo) : ℚ :=
  (dtCandidates cfl elems).foldr min dtMax

/-! ## Swarm (spec sections 3, 4.6e-f) -/

/-- Modelled from the spec: a swarm particle — continuous position, its one
owning material identifier, and an active flag (deactivated particles are
marked, not removed; spec sections 3, 9). -/
structure Particle where
  pos : ℚ × ℚ
  mat : ℕ
  active : Bool

/-- Whether a point lies inside the mesh domain. -/
def inDomain (m : Mesh) (p : ℚ × ℚ) : Bool :=
  decide (m.minX ≤ p.1 ∧ p.1 ≤ m.maxX ∧ m.minY ≤ p.2 ∧ p.2 ≤ m.maxY)

/-- Modelled from the spec: per-particle step — an active particle is moved
to its advected position; if that position leaves the domain the particle is
deactivated (not reflected, clamped or removed); inactive particles are
untouched (spec section 4.6e-f). `vel` is the interpolated velocity field. -/
def advectParticle (m : Mesh) (dt : ℚ) (vel : ℚ × ℚ → ℚ × ℚ) (p : Particle) :
    Particle :=
  if p.active then
    let q := advect p.pos dt (vel p.pos)
    if inDomain m q then { p with pos := q } else { p with pos := q, active := false }
  else p

/-- Modelled from the spec: advect every swarm particle; the particle list
keeps its length — exiting particles are deactivated in place
(spec sections 4.6e-f, 9). -/
def advectSwarm (m : Mesh) (dt : ℚ) (vel : ℚ × ℚ → ℚ × ℚ) (ps : List Particle) :
    List Particle :=
  ps.map (advectParticle m dt vel)

/-! ## Simulation driver (spec section 4.6) -/

/-- Modelled from the spec: the simulation state owned by the driver —
committed field values, the swarm, the current time and the step count
(spec section 3). -/
structure Sim (F : Type) where
  fields : F
  swarm : List Particle
  time : ℚ
  stepCount : ℕ

/-- Modelled from the spec: the `StepResult` carries the new simulation
time, the step index, and the convergence diagnostics (iteration counts) of
both solves (spec section 4.6). -/
structure StepResult where
  time : ℚ
  stepIndex : ℕ
  stokesIterations : ℕ
  thermalIterations : ℕ

/-- A per-step failure: which solve failed, with its `NonConvergence`
payload (iteration count, last residual, last iterate). -/
inductive StepError (V T : Type) where
  | stokesFailure (e : NonConvergence V)
  | thermalFailure (e : NonConvergence T)

/-- Modelled from the spec: one driver step — Stokes solve, Δt selection,
thermal solve, then commit the new fields and advect the swarm; if either
solve fails the step returns the error and produces no new state
(spec sections 4.6, 7). `stokes` and `thermal` abstract the two capped
solvers, `commit` merges the converged solutions into the field state,
`dtOf` is the CFL selection and `velAt` the interpolated velocity. -/
def step {F V T : Type}
    (stokes : F → List Particle → Except (NonConvergence V) (SolveResult V))
    (thermal : V → ℚ → F → Except (NonConvergence T) (SolveResult T))
    (commit : F → V → T → F) (dtOf : V → ℚ) (velAt : V → ℚ × ℚ → ℚ × ℚ)
    (m : Mesh) (s : Sim F) : Except (StepError V T) (Sim F × StepResult) :=
  match stokes s.fields s.swarm with
  | .error e => .error (.stokesFailure e)
  | .ok sv =>
    let dt := dtOf sv.sol
    match thermal sv.sol dt s.fields with
    | .error e => .error (.thermalFailure e)
    | .ok tv =>
      .ok ({ fields := commit s.fields sv.sol tv.sol,
             swarm := advectSwarm m dt (velAt sv.sol) s.swarm,
             time := s.time + dt,
             stepCount := s.stepCount + 1 },
           ⟨s.time + dt, s.stepCount + 1, sv.iterations, tv.iterations⟩)

/-- Modelled from the spec: `run` repeats `step`; on a per-step failure the
run stops, reporting the error and keeping the last committed state
(spec sections 4.6, 7). -/
def runFor {F V T : Type} (stepF : Sim F → Except (StepError V T) (Sim F × StepResult)) :
    ℕ → Sim F → Sim F × List StepResult × Option (StepError V T)
  | 0, s => (s, [], none)
  | n + 1, s =>
    match stepF s with
    | .error e => (s, [], some e)
    | .ok (s2, r) =>
      let rest := runFor stepF n s2
      (rest.1, r :: rest.2.1, rest.2.2)

end Engine

namespace Engine

/-! ## Rheology lemmas and claim C1 -/

theorem four_rpow_neg_half : (4 : ℝ) ^ (-(1 / 2) : ℝ) = 1 / 2 := by
  rw [show (4 : ℝ) = 2 ^ (2 : ℕ) by norm_num, ← Real.rpow_natCast 2 2,
    ← Real.rpow_mul (by norm_num : (0 : ℝ) ≤ 2),
    show ((2 : ℕ) : ℝ) * (-(1 / 2)) = -1 by norm_num, Real.rpow_neg_one]
  norm_num

theorem powerLawRaw_four_two_one : powerLawRaw 4 2 1 = 1 / 2 := by
  unfold powerLawRaw
  rw [Real.one_rpow, mul_one]
  exact four_rpow_neg_half

/-- Claim C1, counterexample: at `A = 4`, `n = 2`, `ε̇_II = 1` the evaluator
does return the clipped `A^(-1/n) · ε̇_II^((1-n)/n) = 1/2`, but the
data-model statement `η = A · σ^(1-n)` fails for that viscosity and its
implied stress `σ = η · ε̇_II = 1/2` (it would require `η = 8`), so the
claimed consistency is false. -/
theorem C1_counterexample :
    evalRheology ⟨1 / 100, 100⟩ (.powerLaw 4 2) 1
        = clip (1 / 100) 100 (powerLawRaw 4 2 1) ∧
      ¬ dataModelPowerLaw 4 2 (powerLawRaw 4 2 1) (stressOf (powerLawRaw 4 2 1) 1) := by
  refine ⟨rfl, fun h => ?_⟩
  unfold dataModelPowerLaw stressOf at h
  rw [powerLawRaw_four_two_one, mul_one, show ((1 : ℝ) - 2) = -1 by norm_num,
    Real.rpow_neg_one] at h
  norm_num at h

/-- Claim C1, amended: for every power-law material and admissible
strain-rate invariant, the Rheology Evaluator returns
`A^(-1/n) · ε̇_II^((1-n)/n)` clipped to `[η_min, η_max]`, and the unclipped
value is consistent with the power-law written in stress form as
`η = A⁻¹ · σ^(1-n)` (the data-model statement with `A` replaced by `A⁻¹`). -/
theorem C1_theorem (cfg : RheoConfig) (A n edot : ℝ) (hA : 0 < A) (hn : 0 < n)
    (he : 0 < edot) :
    evalRheology cfg (.powerLaw A n) edot
        = clip cfg.etaMin cfg.etaMax (powerLawRaw A n edot) ∧
      dataModelPowerLawInv A n (powerLawRaw A n edot)
        (stressOf (powerLawRaw A n edot) edot) := by
  refine ⟨rfl, ?_⟩
  unfold dataModelPowerLawInv stressOf powerLawRaw
  have hn0 : n ≠ 0 := ne_of_gt hn
  have hA0 : (0 : ℝ) ≤ A ^ (-(1 / n)) := Real.rpow_nonneg hA.le _
  have hstep : A ^ (-(1 / n)) * edot ^ ((1 - n) / n) * edot
      = A ^ (-(1 / n)) * edot ^ (1 / n) := by
    rw [mul_assoc]
    congr 1
    calc edot ^ ((1 - n) / n) * edot
        = edot ^ ((1 - n) / n) * edot ^ (1 : ℝ) := by rw [Real.rpow_one]
      _ = edot ^ ((1 - n) / n + 1) := (Real.rpow_add he _ _).symm
      _ = edot ^ (1 / n) := by
          congr 1
          field_simp
  rw [hstep, Real.mul_rpow hA0 (Real.rpow_nonneg he.le _),
    ← Real.rpow_mul hA.le, ← Real.rpow_mul he.le,
    show (1 / n) * (1 - n) = (1 - n) / n by ring,
    ← Real.rpow_neg_one A, ← mul_assoc, ← Real.rpow_add hA]
  congr 1
  field_simp
  ring_nf

/-! ## Picard-loop lemmas and claims C2, C3, C10 -/

theorem clip_eq_self {lo hi x : ℝ} (h1 : lo ≤ x) (h2 : x ≤ hi) : clip lo hi x = x := by
  unfold clip
  rw [min_eq_left h2, max_eq_right h1]

theorem evalRheology_powerLaw_one (cfg : RheoConfig) (a edot : ℝ) :
    evalRheology cfg (.powerLaw a 1) edot = clip cfg.etaMin cfg.etaMax a⁻¹ := by
  show clip cfg.etaMin cfg.etaMax (powerLawRaw a 1 edot) = _
  unfold powerLawRaw
  rw [show (-(1 / 1) : ℝ) = -1 by norm_num, show ((1 - 1) / 1 : ℝ) = 0 by norm_num,
    Real.rpow_neg_one, Real.rpow_zero, mul_one]

theorem picardAux_converged {E S : Type} (solve : (E → ℝ) → S) (viscOf : S → E → ℝ)
    (conv : (E → ℝ) → (E → ℝ) → Bool) (resid : (E → ℝ) → (E → ℝ) → ℝ)
    (fuel count : ℕ) (visc : E → ℝ) (h : conv visc (viscOf (solve visc)) = true) :
    picardAux solve viscOf conv resid fuel count visc = .ok ⟨solve visc, count + 1⟩ := by
  cases fuel <;> simp [picardAux, h]

theorem viscIter_succ_shift {E S : Type} (solve : (E → ℝ) → S) (viscOf : S → E → ℝ)
    (visc0 : E → ℝ) (k : ℕ) :
    viscIter solve viscOf visc0 (k + 1)
      = viscIter solve viscOf (viscOf (solve visc0)) k := by
  induction k with
  | zero => rfl
  | succ k ih =>
    show viscOf (solve (viscIter solve viscOf visc0 (k + 1)))
        = viscOf (solve (viscIter solve viscOf (viscOf (solve visc0)) k))
    rw [ih]

theorem picardAux_failed {E S : Type} (solve : (E → ℝ) → S) (viscOf : S → E → ℝ)
    (conv : (E → ℝ) → (E → ℝ) → Bool) (resid : (E → ℝ) → (E → ℝ) → ℝ) :
    ∀ (fuel count : ℕ) (visc0 : E → ℝ),
      (∀ k, k ≤ fuel → conv (viscIter solve viscOf visc0 k)
        (viscIter solve viscOf visc0 (k + 1)) = false) →
      picardAux solve viscOf conv resid fuel count visc0
        = .error ⟨solve (viscIter solve viscOf visc0 fuel), count + fuel + 1,
            resid (viscIter solve viscOf visc0 fuel)
              (viscIter solve viscOf visc0 (fuel + 1))⟩ := by
  intro fuel
  induction fuel with
  | zero =>
    intro count visc0 hfail
    have h0 : conv visc0 (viscOf (solve visc0)) = false := hfail 0 (Nat.le_refl 0)
    simp [picardAux, viscIter, h0]
  | succ f ih =>
    intro count visc0 hfail
    have h0 : conv visc0 (viscOf (solve visc0)) = false := hfail 0 (Nat.zero_le _)
    have h2 : ∀ k, k ≤ f → conv (viscIter solve viscOf (viscOf (solve visc0)) k)
        (viscIter solve viscOf (viscOf (solve visc0)) (k + 1)) = false := by
      intro k hk
      rw [← viscIter_succ_shift, ← viscIter_succ_shift]
      exact hfail (k + 1) (Nat.succ_le_succ hk)
    calc picardAux solve viscOf conv resid (f + 1) count visc0
        = picardAux solve viscOf conv resid f (count + 1) (viscOf (solve visc0)) := by
          simp [picardAux, h0]
      _ = .error ⟨solve (viscIter solve viscOf (viscOf (solve visc0)) f),
            count + 1 + f + 1,
            resid (viscIter solve viscOf (viscOf (solve visc0)) f)
              (viscIter solve viscOf (viscOf (solve visc0)) (f + 1))⟩ :=
          ih (count + 1) (viscOf (solve visc0)) h2
      _ = _ := by
          rw [← viscIter_succ_shift solve viscOf visc0 f,
            ← viscIter_succ_shift solve viscOf visc0 (f + 1)]
          simp only [Except.error.injEq, NonConvergence.mk.injEq, and_true, true_and]
          omega

theorem picardAux_iterations_le {E S : Type} (solve : (E → ℝ) → S) (viscOf : S → E → ℝ)
    (conv : (E → ℝ) → (E → ℝ) → Bool) (resid : (E → ℝ) → (E → ℝ) → ℝ) :
    ∀ (fuel count : ℕ) (visc : E → ℝ),
      iterationsOf (picardAux solve viscOf conv resid fuel count visc)
        ≤ count + fuel + 1 := by
  intro fuel
  induction fuel with
  | zero =>
    intro count visc
    cases hc : conv visc (viscOf (solve visc)) <;>
      simp [picardAux, iterationsOf, hc]
  | succ f ih =>
    intro count visc
    cases hc : conv visc (viscOf (solve visc))
    · calc iterationsOf (picardAux solve viscOf conv resid (f + 1) count visc)
          = iterationsOf (picardAux solve viscOf conv resid f (count + 1)
              (viscOf (solve visc))) := by simp [picardAux, hc]
        _ ≤ count + 1 + f + 1 := ih (count + 1) (viscOf (solve visc))
        _ ≤ count + (f + 1) + 1 := by omega
    · simp [picardAux, iterationsOf, hc]

/-- Claim C2: when every material is a power-law with stress exponent
`n = 1`, the viscosity the Rheology Evaluator produces is the constant
`A⁻¹` (clipped), so the Picard loop converges in exactly one iteration and
returns the very solution of the corresponding constant-viscosity
(Newtonian) run, which also takes exactly one iteration. `hconv` states
that the tolerance test accepts two equal consecutive viscosity fields;
`hclip` states that the Newtonian viscosities lie inside the configured
clip interval. -/
theorem C2_theorem {E S : Type} (solve : (E → ℝ) → S) (strainInv : S → E → ℝ)
    (conv : (E → ℝ) → (E → ℝ) → Bool) (resid : (E → ℝ) → (E → ℝ) → ℝ)
    (cfg : RheoConfig) (A : E → ℝ) (prevStrain : E → ℝ) (maxIters : ℕ)
    (hconv : ∀ v, conv v v = true)
    (hclip : ∀ e, cfg.etaMin ≤ (A e)⁻¹ ∧ (A e)⁻¹ ≤ cfg.etaMax) :
    picard solve (viscFromRheology cfg (fun e => .powerLaw (A e) 1) strainInv)
        conv resid maxIters
        (initVisc cfg (fun e => .powerLaw (A e) 1) prevStrain)
      = .ok ⟨solve (fun e => (A e)⁻¹), 1⟩ ∧
    picard solve (viscFromRheology cfg (fun e => .constant (A e)⁻¹) strainInv)
        conv resid maxIters
        (initVisc cfg (fun e => .constant (A e)⁻¹) prevStrain)
      = .ok ⟨solve (fun e => (A e)⁻¹), 1⟩ := by
  have hPL : ∀ (x : ℝ) (e : E), evalRheology cfg (.powerLaw (A e) 1) x = (A e)⁻¹ := by
    intro x e
    rw [evalRheology_powerLaw_one, clip_eq_self (hclip e).1 (hclip e).2]
  have hvPL : initVisc cfg (fun e => .powerLaw (A e) 1) prevStrain
      = fun e => (A e)⁻¹ := funext fun e => hPL _ e
  have hvfPL : ∀ sol, viscFromRheology cfg (fun e => .powerLaw (A e) 1) strainInv sol
      = fun e => (A e)⁻¹ := fun sol => funext fun e => hPL _ e
  constructor
  · unfold picard
    rw [hvPL]
    exact picardAux_converged _ _ _ _ _ _ _ (by rw [hvfPL]; exact hconv _)
  · unfold picard
    exact picardAux_converged _ _ _ _ _ _ _ (hconv _)

/-- Claim C2, witness: a one-element configuration with `A = 2`, clip
interval `[1/4, 4]` and a tolerance test accepting equal fields: both the
`n = 1` power-law run and the `η₀ = 1/2` constant run converge in exactly
one Picard iteration to the same solution. -/
theorem C2_witness :
    picard (fun v : Unit → ℝ => v ())
        (viscFromRheology ⟨1 / 4, 4⟩ (fun _ : Unit => .powerLaw 2 1)
          fun (s : ℝ) (_ : Unit) => s)
        (fun _ _ => true) (fun _ _ => 0) 5
        (initVisc ⟨1 / 4, 4⟩ (fun _ : Unit => .powerLaw 2 1) fun _ => 0)
      = .ok ⟨(2 : ℝ)⁻¹, 1⟩ ∧
    picard (fun v : Unit → ℝ => v ())
        (viscFromRheology ⟨1 / 4, 4⟩ (fun _ : Unit => .constant (2 : ℝ)⁻¹)
          fun (s : ℝ) (_ : Unit) => s)
        (fun _ _ => true) (fun _ _ => 0) 5
        (initVisc ⟨1 / 4, 4⟩ (fun _ : Unit => .constant (2 : ℝ)⁻¹) fun _ => 0)
      = .ok ⟨(2 : ℝ)⁻¹, 1⟩ :=
  C2_theorem (fun v => v ()) (fun s _ => s) (fun _ _ => true) (fun _ _ => 0)
    ⟨1 / 4, 4⟩ (fun _ => 2) (fun _ => 0) 5 (fun _ => rfl)
    (fun _ => ⟨by norm_num, by norm_num⟩)

/-- Claim C3: when no iteration of the Picard loop meets the tolerance test
within `maxIters` iterations, the solve fails with a `NonConvergence` error
that carries the last iterate, the iteration count `maxIters` and the last
residual; and the driver's `step` propagates a failed Stokes solve as a
`StepError` carrying that same payload — no solver failure is swallowed. -/
theorem C3_theorem {E S F V T : Type} (solve : (E → ℝ) → S) (viscOf : S → E → ℝ)
    (conv : (E → ℝ) → (E → ℝ) → Bool) (resid : (E → ℝ) → (E → ℝ) → ℝ)
    (visc0 : E → ℝ) (maxIters : ℕ)
    (stokes : F → List Particle → Except (NonConvergence V) (SolveResult V))
    (thermal : V → ℚ → F → Except (NonConvergence T) (SolveResult T))
    (commit : F → V → T → F) (dtOf : V → ℚ) (velAt : V → ℚ × ℚ → ℚ × ℚ)
    (m : Mesh) (s : Sim F) (e : NonConvergence V)
    (hM : 1 ≤ maxIters)
    (hfail : ∀ k, k < maxIters → conv (viscIter solve viscOf visc0 k)
      (viscIter solve viscOf visc0 (k + 1)) = false)
    (hs : stokes s.fields s.swarm = .error e) :
    picard solve viscOf conv resid maxIters visc0
      = .error ⟨solve (viscIter solve viscOf visc0 (maxIters - 1)), maxIters,
          resid (viscIter solve viscOf visc0 (maxIters - 1))
            (viscIter solve viscOf visc0 maxIters)⟩ ∧
    step stokes thermal commit dtOf velAt m s = .error (.stokesFailure e) := by
  constructor
  · unfold picard
    rw [picardAux_failed solve viscOf conv resid (maxIters - 1) 0 visc0
      (fun k hk => hfail k (by omega))]
    have hM1 : maxIters - 1 + 1 = maxIters := Nat.succ_pred_eq_of_pos hM
    simp only [Nat.zero_add, hM1]
  · simp [step, hs]

/-- Claim C3, witness: with a tolerance test that never accepts and
`maxIters = 2`, the Picard loop fails after exactly 2 iterations with the
last iterate and last residual in the error payload, and a failed Stokes
solve surfaces through `step` as a `stokesFailure` with its payload. -/
theorem C3_witness :
    picard (fun v : Unit → ℝ => v ()) (fun (s : ℝ) (_ : Unit) => s + 1)
        (fun _ _ => false) (fun v w => w () - v ()) 2 (fun _ => 0)
      = .error ⟨(fun v : Unit → ℝ => v ())
            (viscIter (fun v : Unit → ℝ => v ()) (fun (s : ℝ) (_ : Unit) => s + 1)
              (fun _ => 0) (2 - 1)), 2,
          (fun v w : Unit → ℝ => w () - v ())
            (viscIter (fun v : Unit → ℝ => v ()) (fun (s : ℝ) (_ : Unit) => s + 1)
              (fun _ => 0) (2 - 1))
            (viscIter (fun v : Unit → ℝ => v ()) (fun (s : ℝ) (_ : Unit) => s + 1)
              (fun _ => 0) 2)⟩ ∧
    step (fun (_ : Unit) (_ : List Particle) =>
          (.error ⟨(0 : ℝ), 2, 1⟩ : Except (NonConvergence ℝ) (SolveResult ℝ)))
        (fun (_ : ℝ) (_ : ℚ) (_ : Unit) =>
          (.ok ⟨(), 1⟩ : Except (NonConvergence Unit) (SolveResult Unit)))
        (fun f _ _ => f) (fun _ => 0) (fun _ _ => (0, 0)) ⟨1, 1, 0, 0, 1, 1⟩
        ⟨(), [], 0, 0⟩
      = .error (.stokesFailure ⟨(0 : ℝ), 2, 1⟩) :=
  C3_theorem (fun v : Unit → ℝ => v ()) (fun s _ => s + 1) (fun _ _ => false)
    (fun v w => w () - v ()) (fun _ => 0) 2
    (fun _ _ => .error ⟨(0 : ℝ), 2, 1⟩) (fun _ _ _ => .ok ⟨(), 1⟩)
    (fun f _ _ => f) (fun _ => 0) (fun _ _ => (0, 0)) ⟨1, 1, 0, 0, 1, 1⟩
    ⟨(), [], 0, 0⟩ ⟨(0 : ℝ), 2, 1⟩ (by decide) (fun _ _ => rfl) rfl

/-- Claim C10: the Picard loop — and with it every capped iterative solve of
the model, the thermal implicit solve included, which is the same capped
state machine instantiated with its own solve and update functions — always
terminates within its hard iteration cap: whatever the solve, update,
tolerance test and starting field, the reported iteration count never
exceeds `maxIters`. -/
theorem C10_theorem {E S : Type} (solve : (E → ℝ) → S) (viscOf : S → E → ℝ)
    (conv : (E → ℝ) → (E → ℝ) → Bool) (resid : (E → ℝ) → (E → ℝ) → ℝ)
    (visc0 : E → ℝ) (maxIters : ℕ) (hM : 1 ≤ maxIters) :
    iterationsOf (picard solve viscOf conv resid maxIters visc0) ≤ maxIters := by
  unfold picard
  have := picardAux_iterations_le solve viscOf conv resid (maxIters - 1) 0 visc0
  omega

/-- Claim C10, witness: the identity-update loop with cap 3 reports at most
3 iterations. -/
theorem C10_witness :
    iterationsOf (picard (fun v : Unit → ℝ => v ()) (fun (s : ℝ) (_ : Unit) => s)
      (fun _ _ => true) (fun _ _ => 0) 3 (fun _ => 0)) ≤ 3 :=
  C10_theorem (fun v => v ()) (fun s _ => s) (fun _ _ => true) (fun _ _ => 0)
    (fun _ => 0) 3 (by decide)

/-! ## Mesh construction, claim C4 -/

/-- Claim C4: `resolve` fails with `InvalidGeometry` exactly when some
element-resolution component is below 1 or the minimum coordinate is not
strictly below the maximum in some component; on success the mesh has
`(nx+1) × (ny+1)` nodes whose coordinates span `[minX,maxX] × [minY,maxY]`
and stay inside those bounds. -/
theorem C4_theorem (er : ℤ × ℤ) (minC maxC : ℚ × ℚ) :
    (resolve er minC maxC = .error .invalidGeometry ↔
      er.1 < 1 ∨ er.2 < 1 ∨ maxC.1 ≤ minC.1 ∨ maxC.2 ≤ minC.2) ∧
    ∀ m, resolve er minC maxC = .ok m →
      numNodes m = (er.1.toNat + 1) * (er.2.toNat + 1) ∧
      m.minX = minC.1 ∧ m.maxX = maxC.1 ∧ m.minY = minC.2 ∧ m.maxY = maxC.2 ∧
      nodeX m 0 = m.minX ∧ nodeX m m.nx = m.maxX ∧
      nodeY m 0 = m.minY ∧ nodeY m m.ny = m.maxY ∧
      ∀ i j, i ≤ m.nx → j ≤ m.ny →
        m.minX ≤ nodeX m i ∧ nodeX m i ≤ m.maxX ∧
        m.minY ≤ nodeY m j ∧ nodeY m j ≤ m.maxY := by
  unfold resolve
  by_cases h : er.1 < 1 ∨ er.2 < 1 ∨ maxC.1 ≤ minC.1 ∨ maxC.2 ≤ minC.2
  · rw [if_pos h]
    exact ⟨⟨fun _ => h, fun _ => rfl⟩, fun m hm => by simp at hm⟩
  · rw [if_neg h]
    push_neg at h
    obtain ⟨h1, h2, h3, h4⟩ := h
    have hnx0 : 0 < er.1.toNat := by omega
    have hny0 : 0 < er.2.toNat := by omega
    have hnxQ : (0 : ℚ) < (er.1.toNat : ℚ) := by exact_mod_cast hnx0
    have hnyQ : (0 : ℚ) < (er.2.toNat : ℚ) := by exact_mod_cast hny0
    refine ⟨⟨fun hc => by simp at hc, fun hc => ?_⟩, fun m hm => ?_⟩
    · rcases hc with c | c | c | c
      · omega
      · omega
      · linarith
      · linarith
    · injection hm with hm
      subst hm
      refine ⟨rfl, rfl, rfl, rfl, rfl, by simp [nodeX], ?_, by simp [nodeY], ?_, ?_⟩
      · show minC.1 + (er.1.toNat : ℚ) * (maxC.1 - minC.1) / (er.1.toNat : ℚ) = maxC.1
        rw [mul_div_cancel_left₀ _ (ne_of_gt hnxQ)]
        ring
      · show minC.2 + (er.2.toNat : ℚ) * (maxC.2 - minC.2) / (er.2.toNat : ℚ) = maxC.2
        rw [mul_div_cancel_left₀ _ (ne_of_gt hnyQ)]
        ring
      · intro i j hi hj
        have hiq : (i : ℚ) ≤ (er.1.toNat : ℚ) := by exact_mod_cast hi
        have hjq : (j : ℚ) ≤ (er.2.toNat : ℚ) := by exact_mod_cast hj
        have hX0 : 0 ≤ (i : ℚ) * (maxC.1 - minC.1) / (er.1.toNat : ℚ) :=
          div_nonneg (mul_nonneg (Nat.cast_nonneg i) (by linarith)) hnxQ.le
        have hY0 : 0 ≤ (j : ℚ) * (maxC.2 - minC.2) / (er.2.toNat : ℚ) :=
          div_nonneg (mul_nonneg (Nat.cast_nonneg j) (by linarith)) hnyQ.le
        have hX1 : (i : ℚ) * (maxC.1 - minC.1) / (er.1.toNat : ℚ) ≤ maxC.1 - minC.1 := by
          rw [div_le_iff₀ hnxQ]
          nlinarith
        have hY1 : (j : ℚ) * (maxC.2 - minC.2) / (er.2.toNat : ℚ) ≤ maxC.2 - minC.2 := by
          rw [div_le_iff₀ hnyQ]
          nlinarith
        refine ⟨?_, ?_, ?_, ?_⟩
        · show minC.1 ≤ minC.1 + (i : ℚ) * (maxC.1 - minC.1) / (er.1.toNat : ℚ)
          linarith
        · show minC.1 + (i : ℚ) * (maxC.1 - minC.1) / (er.1.toNat : ℚ) ≤ maxC.1
          linarith
        · show minC.2 ≤ minC.2 + (j : ℚ) * (maxC.2 - minC.2) / (er.2.toNat : ℚ)
          linarith
        · show minC.2 + (j : ℚ) * (maxC.2 - minC.2) / (er.2.toNat : ℚ) ≤ maxC.2
          linarith

/-- Claim C4, witness: the validity test and the node-count and bound facts
of the constructed mesh, at resolution `(2, 2)` over `[0,1] × [0,1]`. -/
theorem C4_witness :
    (resolve (2, 2) (0, 0) (1, 1) = .error .invalidGeometry ↔
      (2 : ℤ) < 1 ∨ (2 : ℤ) < 1 ∨ (1 : ℚ) ≤ 0 ∨ (1 : ℚ) ≤ 0) ∧
    (numNodes ⟨2, 2, 0, 0, 1, 1⟩ = 9 ∧
      (⟨2, 2, 0, 0, 1, 1⟩ : Mesh).minX = 0 ∧ (⟨2, 2, 0, 0, 1, 1⟩ : Mesh).maxX = 1 ∧
      (⟨2, 2, 0, 0, 1, 1⟩ : Mesh).minY = 0 ∧ (⟨2, 2, 0, 0, 1, 1⟩ : Mesh).maxY = 1 ∧
      nodeX ⟨2, 2, 0, 0, 1, 1⟩ 0 = 0 ∧ nodeX ⟨2, 2, 0, 0, 1, 1⟩ 2 = 1 ∧
      nodeY ⟨2, 2, 0, 0, 1, 1⟩ 0 = 0 ∧ nodeY ⟨2, 2, 0, 0, 1, 1⟩ 2 = 1) ∧
    ((0 : ℚ) ≤ nodeX ⟨2, 2, 0, 0, 1, 1⟩ 1 ∧ nodeX ⟨2, 2, 0, 0, 1, 1⟩ 1 ≤ 1 ∧
      (0 : ℚ) ≤ nodeY ⟨2, 2, 0, 0, 1, 1⟩ 1 ∧ nodeY ⟨2, 2, 0, 0, 1, 1⟩ 1 ≤ 1) := by
  have h := (C4_theorem (2, 2) (0, 0) (1, 1)).2 ⟨2, 2, 0, 0, 1, 1⟩ rfl
  exact ⟨(C4_theorem (2, 2) (0, 0) (1, 1)).1,
    ⟨h.1, h.2.1, h.2.2.1, h.2.2.2.1, h.2.2.2.2.1, h.2.2.2.2.2.1, h.2.2.2.2.2.2.1,
      h.2.2.2.2.2.2.2.1, h.2.2.2.2.2.2.2.2.1⟩,
    h.2.2.2.2.2.2.2.2.2 1 1 (by decide) (by decide)⟩

/-! ## CFL time-step selection, claim C5 -/

theorem foldr_min_le_init (l : List ℚ) (a : ℚ) : l.foldr min a ≤ a := by
  induction l with
  | nil => exact le_rfl
  | cons x xs ih => exact le_trans (min_le_right _ _) ih

theorem foldr_min_le_mem {l : List ℚ} {a x : ℚ} (hx : x ∈ l) : l.foldr min a ≤ x := by
  induction l with
  | nil => cases hx
  | cons y ys ih =>
    rcases List.mem_cons.mp hx with h | h
    · subst h
      exact min_le_left _ _
    · exact le_trans (min_le_right _ _) (ih h)

/-- Claim C5: the selected time step is the `CFL_factor`-scaled minimum of
`elementSize / |velocity|` over the constraining elements, clamped to the
configured maximum; consequently, for `CFL_factor ≤ 1`, a particle whose
local element has characteristic length `e.size` and whose local speed is
bounded by the element's velocity bound moves at most one element length in
the step. -/
theorem C5_theorem (cfl dtMax : ℚ) (elems : List ElemInfo) (e : ElemInfo) (sp : ℚ)
    (_hcfl0 : 0 < cfl) (hcfl1 : cfl ≤ 1) (he : e ∈ elems) (hsize : 0 ≤ e.size)
    (hsp0 : 0 ≤ sp) (hsp : sp ≤ e.speed) :
    selectDt cfl dtMax elems ≤ dtMax ∧
    selectDt cfl dtMax elems * sp ≤ e.size := by
  refine ⟨foldr_min_le_init _ _, ?_⟩
  rcases eq_or_lt_of_le hsp0 with h0 | h0
  · rw [← h0, mul_zero]
    exact hsize
  · have hspeed : 0 < e.speed := lt_of_lt_of_le h0 hsp
    have hmem : cfl * (e.size / e.speed) ∈ dtCandidates cfl elems := by
      unfold dtCandidates
      exact List.mem_filterMap.mpr ⟨e, he, by rw [if_pos hspeed]⟩
    have hdt : selectDt cfl dtMax elems ≤ cfl * (e.size / e.speed) :=
      foldr_min_le_mem hmem
    have h2 : selectDt cfl dtMax elems * sp ≤ cfl * (e.size / e.speed) * sp :=
      mul_le_mul_of_nonneg_right hdt hsp0
    have h3 : cfl * (e.size / e.speed) * sp ≤ e.size := by
      have hcs : cfl * sp ≤ e.speed := by nlinarith
      have heq : cfl * (e.size / e.speed) * sp = e.size * (cfl * sp) / e.speed := by
        ring
      rw [heq, div_le_iff₀ hspeed]
      nlinarith
    linarith

/-- Claim C5, witness: with `CFL_factor = 1/2`, maximum step `10`, a single
element of size 1 and velocity bound 2, a particle of speed 1 moves at most
one element length. -/
theorem C5_witness :
    selectDt (1 / 2) 10 [⟨1, 2⟩] ≤ 10 ∧ selectDt (1 / 2) 10 [⟨1, 2⟩] * 1 ≤ 1 :=
  C5_theorem (1 / 2) 10 [⟨1, 2⟩] ⟨1, 2⟩ 1 (by norm_num) (by norm_num)
    (List.mem_singleton_self _) (by norm_num) (by norm_num) (by norm_num)

/-! ## Driver and swarm claims C6, C7, C8, C9 -/

/-- Claim C6: if a step fails (either solve not converged) the run keeps the
previously committed state unchanged — same fields, swarm, time and step
count — and reports the error; when a step succeeds, its new state is
exactly the one committed from the two converged solutions (fields merged by
`commit`, swarm advected, time and step count advanced). -/
theorem C6_theorem {F V T : Type}
    (stokes : F → List Particle → Except (NonConvergence V) (SolveResult V))
    (thermal : V → ℚ → F → Except (NonConvergence T) (SolveResult T))
    (commit : F → V → T → F) (dtOf : V → ℚ) (velAt : V → ℚ × ℚ → ℚ × ℚ)
    (m : Mesh) (s s2 s3 : Sim F) (r : StepResult) (err : StepError V T) (n : ℕ)
    (v : SolveResult V) (t : SolveResult T)
    (hfail : step stokes thermal commit dtOf velAt m s = .error err)
    (hok : step stokes thermal commit dtOf velAt m s2 = .ok (s3, r))
    (hst : stokes s2.fields s2.swarm = .ok v)
    (hth : thermal v.sol (dtOf v.sol) s2.fields = .ok t) :
    runFor (step stokes thermal commit dtOf velAt m) (n + 1) s = (s, [], some err) ∧
    (Except.isOk (stokes s2.fields s2.swarm) = true ∧
      Except.isOk (thermal v.sol (dtOf v.sol) s2.fields) = true ∧
      s3.fields = commit s2.fields v.sol t.sol ∧
      s3.swarm = advectSwarm m (dtOf v.sol) (velAt v.sol) s2.swarm ∧
      s3.time = s2.time + dtOf v.sol ∧
      s3.stepCount = s2.stepCount + 1) := by
  refine ⟨by simp [runFor, hfail], ?_⟩
  simp only [step, hst, hth, Except.ok.injEq, Prod.mk.injEq] at hok
  obtain ⟨h1, h2⟩ := hok
  subst h1
  exact ⟨by simp [hst, Except.isOk, Except.toBool], by simp [hth, Except.isOk, Except.toBool], rfl, rfl, rfl, rfl⟩

/-- Claim C6, witness: a driver whose Stokes solve fails on `fields = false`
and succeeds on `fields = true`: the failing step leaves the committed state
untouched and reports the error; the succeeding step commits the converged
solutions. -/
theorem C6_witness :
    runFor (step (fun (f : Bool) (_ : List Particle) =>
          if f then (.ok ⟨(), 1⟩ : Except (NonConvergence Unit) (SolveResult Unit))
          else .error ⟨(), 3, 0⟩)
        (fun (_ : Unit) (_ : ℚ) (_ : Bool) =>
          (.ok ⟨(), 1⟩ : Except (NonConvergence Unit) (SolveResult Unit)))
        (fun _ _ _ => true) (fun _ => 1) (fun _ _ => (0, 0)) ⟨1, 1, 0, 0, 1, 1⟩)
      (0 + 1) ⟨false, [], 0, 0⟩
      = (⟨false, [], 0, 0⟩, [], some (.stokesFailure ⟨(), 3, 0⟩)) ∧
    (Except.isOk (.ok ⟨(), 1⟩ : Except (NonConvergence Unit) (SolveResult Unit)) = true ∧
      Except.isOk (.ok ⟨(), 1⟩ : Except (NonConvergence Unit) (SolveResult Unit)) = true ∧
      (⟨true, [], 0 + 1, 0 + 1⟩ : Sim Bool).fields = true ∧
      (⟨true, [], 0 + 1, 0 + 1⟩ : Sim Bool).swarm
        = advectSwarm ⟨1, 1, 0, 0, 1, 1⟩ 1 (fun _ => (0, 0)) [] ∧
      (⟨true, [], 0 + 1, 0 + 1⟩ : Sim Bool).time = (0 : ℚ) + 1 ∧
      (⟨true, [], 0 + 1, 0 + 1⟩ : Sim Bool).stepCount = 0 + 1) :=
  C6_theorem
    (fun (f : Bool) (_ : List Particle) =>
      if f then (.ok ⟨(), 1⟩ : Except (NonConvergence Unit) (SolveResult Unit))
      else .error ⟨(), 3, 0⟩)
    (fun (_ : Unit) (_ : ℚ) (_ : Bool) =>
      (.ok ⟨(), 1⟩ : Except (NonConvergence Unit) (SolveResult Unit)))
    (fun _ _ _ => true) (fun _ => 1) (fun _ _ => (0, 0)) ⟨1, 1, 0, 0, 1, 1⟩
    ⟨false, [], 0, 0⟩ ⟨true, [], 0, 0⟩ ⟨true, [], 0 + 1, 0 + 1⟩
    ⟨0 + 1, 0 + 1, 1, 1⟩ (.stokesFailure ⟨(), 3, 0⟩) 0 ⟨(), 1⟩ ⟨(), 1⟩
    rfl rfl rfl rfl

/-- Claim C7: interpolating a velocity field whose node values are all zero
yields the zero vector at every point, so advecting any particle by any
`Δt ≥ 0` under that field leaves its position unchanged. -/
theorem C7_theorem (f : ℕ × ℕ → ℚ × ℚ) (hf : ∀ ij, f ij = (0, 0)) (p : ℚ × ℚ)
    (dt : ℚ) (_hdt : 0 ≤ dt) (e : ℕ × ℕ) (xi et : ℚ) :
    interpVel f e xi et = (0, 0) ∧ advect p dt (interpVel f e xi et) = p := by
  have h : interpVel f e xi et = (0, 0) := by
    simp [interpVel, bilinearV, bilinear, hf]
  refine ⟨h, ?_⟩
  rw [h]
  simp [advect]

/-- Claim C7, witness: zero-field advection of the particle at
`(1/2, 1/3)` with `Δt = 7` is the identity. -/
theorem C7_witness :
    interpVel (fun _ => (0, 0)) (0, 0) (1 / 4) (1 / 5) = (0, 0) ∧
    advect (1 / 2, 1 / 3) 7 (interpVel (fun _ => (0, 0)) (0, 0) (1 / 4) (1 / 5))
      = (1 / 2, 1 / 3) :=
  C7_theorem (fun _ => (0, 0)) (fun _ => rfl) (1 / 2, 1 / 3) 7 (by norm_num)
    (0, 0) (1 / 4) (1 / 5)

/-- Claim C8: the driver's `step` is deterministic — run on two identical
snapshots it produces identical results (the model is a pure function of the
snapshot; there is no hidden state or sampling). -/
theorem C8_theorem {F V T : Type}
    (stokes : F → List Particle → Except (NonConvergence V) (SolveResult V))
    (thermal : V → ℚ → F → Except (NonConvergence T) (SolveResult T))
    (commit : F → V → T → F) (dtOf : V → ℚ) (velAt : V → ℚ × ℚ → ℚ × ℚ)
    (m : Mesh) (s1 s2 : Sim F) (h : s1 = s2) :
    step stokes thermal commit dtOf velAt m s1
      = step stokes thermal commit dtOf velAt m s2 := by
  rw [h]

/-- Claim C8, witness: two runs of `step` on the same concrete snapshot
agree. -/
theorem C8_witness :
    step (fun (_ : Unit) (_ : List Particle) =>
        (.ok ⟨(), 1⟩ : Except (NonConvergence Unit) (SolveResult Unit)))
      (fun (_ : Unit) (_ : ℚ) (_ : Unit) =>
        (.ok ⟨(), 1⟩ : Except (NonConvergence Unit) (SolveResult Unit)))
      (fun _ _ _ => ()) (fun _ => 1) (fun _ _ => (0, 0)) ⟨1, 1, 0, 0, 1, 1⟩
      ⟨(), [], 0, 0⟩
      = step (fun (_ : Unit) (_ : List Particle) =>
          (.ok ⟨(), 1⟩ : Except (NonConvergence Unit) (SolveResult Unit)))
        (fun (_ : Unit) (_ : ℚ) (_ : Unit) =>
          (.ok ⟨(), 1⟩ : Except (NonConvergence Unit) (SolveResult Unit)))
        (fun _ _ _ => ()) (fun _ => 1) (fun _ _ => (0, 0)) ⟨1, 1, 0, 0, 1, 1⟩
        ⟨(), [], 0, 0⟩ :=
  C8_theorem (fun _ _ => .ok ⟨(), 1⟩) (fun _ _ _ => .ok ⟨(), 1⟩)
    (fun _ _ _ => ()) (fun _ => 1) (fun _ _ => (0, 0)) ⟨1, 1, 0, 0, 1, 1⟩
    ⟨(), [], 0, 0⟩ ⟨(), [], 0, 0⟩ rfl

/-- Claim C9: a swarm step preserves the particle count (particles are
marked, never removed), preserves each particle's unique material
identifier, moves an active particle to its raw advected position (no
reflection or clamping, wherever that position lands), keeps it active
exactly when that position stays inside the domain (deactivating it
otherwise), and leaves inactive particles untouched. -/
theorem C9_theorem (m : Mesh) (dt : ℚ) (vel : ℚ × ℚ → ℚ × ℚ) (ps : List Particle)
    (p q : Particle) (hact : p.active = true) (hinact : q.active = false) :
    (advectSwarm m dt vel ps).length = ps.length ∧
    advectSwarm m dt vel ps = ps.map (advectParticle m dt vel) ∧
    (advectParticle m dt vel p).mat = p.mat ∧
    (advectParticle m dt vel p).pos = advect p.pos dt (vel p.pos) ∧
    ((advectParticle m dt vel p).active = true ↔
      inDomain m (advect p.pos dt (vel p.pos)) = true) ∧
    advectParticle m dt vel q = q := by
  have hP : advectParticle m dt vel p =
      if inDomain m (advect p.pos dt (vel p.pos)) then
        { p with pos := advect p.pos dt (vel p.pos) }
      else { p with pos := advect p.pos dt (vel p.pos), active := false } := by
    simp [advectParticle, hact]
  refine ⟨List.length_map _ _, rfl, ?_, ?_, ?_, by simp [advectParticle, hinact]⟩
  all_goals by_cases hd : inDomain m (advect p.pos dt (vel p.pos)) = true
  · rw [hP, if_pos hd]
  · rw [hP, if_neg hd]
  · rw [hP, if_pos hd]
  · rw [hP, if_neg hd]
  · rw [hP, if_pos hd]
    simp [hact, hd]
  · rw [hP, if_neg hd]
    simp [hd]

/-- Claim C9, witness: on the unit square, an active particle advected to
`(2, 0)` exits the domain and is deactivated at its raw advected position
with its material kept; an inactive particle is untouched; the one-particle
swarm keeps length 1. -/
theorem C9_witness :
    (advectSwarm ⟨1, 1, 0, 0, 1, 1⟩ 1 (fun _ => (2, 0)) [⟨(0, 0), 5, true⟩]).length
        = [(⟨(0, 0), 5, true⟩ : Particle)].length ∧
    advectSwarm ⟨1, 1, 0, 0, 1, 1⟩ 1 (fun _ => (2, 0)) [⟨(0, 0), 5, true⟩]
        = [(⟨(0, 0), 5, true⟩ : Particle)].map
            (advectParticle ⟨1, 1, 0, 0, 1, 1⟩ 1 (fun _ => (2, 0))) ∧
    (advectParticle ⟨1, 1, 0, 0, 1, 1⟩ 1 (fun _ => (2, 0)) ⟨(0, 0), 5, true⟩).mat = 5 ∧
    (advectParticle ⟨1, 1, 0, 0, 1, 1⟩ 1 (fun _ => (2, 0)) ⟨(0, 0), 5, true⟩).pos
        = advect (0, 0) 1 (2, 0) ∧
    ((advectParticle ⟨1, 1, 0, 0, 1, 1⟩ 1 (fun _ => (2, 0)) ⟨(0, 0), 5, true⟩).active = true ↔
      inDomain ⟨1, 1, 0, 0, 1, 1⟩ (advect (0, 0) 1 (2, 0)) = true) ∧
    advectParticle ⟨1, 1, 0, 0, 1, 1⟩ 1 (fun _ => (2, 0)) ⟨(1 / 2, 1 / 2), 7, false⟩
        = ⟨(1 / 2, 1 / 2), 7, false⟩ :=
  C9_theorem ⟨1, 1, 0, 0, 1, 1⟩ 1 (fun _ => (2, 0)) [⟨(0, 0), 5, true⟩]
    ⟨(0, 0), 5, true⟩ ⟨(1 / 2, 1 / 2), 7, false⟩ rfl rfl

/-- Claim C1, witness: the amended statement instantiated at
`A = 2`, `n = 3`, `ε̇_II = 2` with clip bounds `[1, 10]`. -/
theorem C1_witness :
    (0 : ℝ) < 2 ∧ (0 : ℝ) < 3 ∧
      (evalRheology ⟨1, 10⟩ (.powerLaw 2 3) 2
          = clip 1 10 (powerLawRaw 2 3 2) ∧
        dataModelPowerLawInv 2 3 (powerLawRaw 2 3 2)
          (stressOf (powerLawRaw 2 3 2) 2)) :=
  ⟨two_pos, three_pos, C1_theorem ⟨1, 10⟩ 2 3 2 two_pos three_pos two_pos⟩

end Engine
